import Mathlib

/-!
Verification development for the designation-allocation subsystem of the
archiveDB document-registry service (src/app/database.py, src/app/main.py,
src/app/docs.py, src/app/models.py).

The relational store is embedded shallowly: each table is a list of rows,
autoincrement ids are an explicit counter, and every operation is a pure
function from the store state.  An operation that raises an exception in
Python (HTTPException, or an uncaught database IntegrityError) returns
`Except.error e`; since the request-scoped transaction is rolled back in
that case, the caller keeps its previous state, which the embedding
expresses by not returning a state on the error path.  Commit-time
behaviour of the database (the UNIQUE constraint on `designation` declared
in models.py, and the foreign-key constraints on `org_id` and the class
ids) is modelled as an explicit check when an operation is about to make
its new rows durable; a violated constraint yields the error the Python
code surfaces (a caught IntegrityError in docs.py, an uncaught one in
main.py).
-/

namespace ArchiveDB

/-- Error taxonomy.  Every `HTTPException(status_code=400/404, detail=...)`
raise site of the source is mapped to the constructor matching its meaning
in the spec taxonomy (§7), carrying the source's detail message;
`integrityError` stands for a database IntegrityError that no handler
catches (surfaced as a 500), and `duplicateNumber` is the spec's
`DuplicateNumber` error, which no code path produces. -/
inductive Err where
  | validation (detail : String)
  | namespaceConflict (detail : String)
  | duplicateDesignation (detail : String)
  | notFound (detail : String)
  | integrityError
  | duplicateNumber (detail : String)
deriving Repr, DecidableEq

/-- ASCII decimal digit, the characters matched by the source's regexes
`\d{6}`, `\d{7}`, `\d{8}` on the inputs this subsystem receives. -/
def isAsciiDigit (c : Char) : Bool := decide ('0' ≤ c) && decide (c ≤ '9')

/-- Uppercase Cyrillic letter, the character class `[А-Я]` of the source's
regex (U+0410 .. U+042F). -/
def isUpperCyr (c : Char) : Bool := decide ('А' ≤ c) && decide (c ≤ 'Я')

/-- `re.match(r'^\d{n}$', s)` restricted to the length-n strings the code
applies it to: every character is a decimal digit. -/
def allDigits (s : String) : Bool := s.toList.all isAsciiDigit

/-- `re.match(r'^[А-Я]{4}$', s)` on a length-4 string: every character is
an uppercase Cyrillic letter. -/
def allUpperCyr (s : String) : Bool := s.toList.all isUpperCyr

/-- Numeric value of a digit string, the `int(org_code)` conversion applied
after the digits-only validation. -/
def natOfDigits (l : List Char) : Nat :=
  l.foldl (fun a c => a * 10 + (c.toNat - 48)) 0

/-- `int(s)` for a possibly signed decimal string (the sign-and-digits core
of Python `int()`); `none` models the `ValueError` branch. -/
def parseIntStr (s : String) : Option Int :=
  match s.toList with
  | [] => none
  | '-' :: rest =>
      if rest ≠ [] && rest.all isAsciiDigit then some (-(natOfDigits rest : Int)) else none
  | '+' :: rest =>
      if rest ≠ [] && rest.all isAsciiDigit then some ((natOfDigits rest : Int)) else none
  | cs =>
      if cs.all isAsciiDigit then some ((natOfDigits cs : Int)) else none

/-- Python truthiness of an optional form/string value: falsy when absent
or the empty string. -/
def strFalsy : Option String → Bool
  | none => true
  | some s => s = ""

/-- An `organizations` row (models.py `Organization`). -/
structure Org where
  id : Nat
  code : Option String
  name : String
  code_okpo : Bool
  num_code : Option Nat
  num_code_okpo : Option Nat
deriving Repr, DecidableEq

/-- The `organizations` table together with its id sequence. -/
structure Orgs where
  rows : List Org
  nextId : Nat
deriving Repr, DecidableEq

/-- A `class_codes_kd` / `class_codes_td` row. -/
structure ClassRow where
  id : Nat
  code : String
  description : String
deriving Repr, DecidableEq

/-- One class-code table (`ClassCodeKD` or `ClassCodeTD`) with its id
sequence. -/
structure Classes where
  rows : List ClassRow
  nextId : Nat
deriving Repr, DecidableEq

/-- Normalisation and validation of the optional display name, the
`org_name` prologue of `get_or_create_org_id` (database.py lines 53-60). -/
def normOrgName (org_name : Option String) : Except Err (Option String) :=
  match org_name with
  | none => .ok none
  | some n =>
      if n = "" then .ok none
      else
        let t := n.trim
        if t = "" then .ok none
        else if t.length > 255 then
          .error (.validation "Название организации не может превышать 255 символов.")
        else .ok (some t)

/-- `get_or_create_org_id` (database.py lines 37-132): find-or-create an
Organization by code, with OKPO/non-OKPO namespace handling.  Returns the
organization id and the table after the call. -/
def get_or_create_org_id (st : Orgs) (org_code : String) (is_okpo : Bool)
    (org_name : Option String) : Except Err (Nat × Orgs) := do
  if org_code = "" then
    throw (.validation "Код организации обязателен.")
  let name ← normOrgName org_name
  if is_okpo then
    if org_code.length ≠ 8 then
      throw (.validation "Код ОКПО должен иметь длину 8 цифр.")
    if !allDigits org_code then
      throw (.validation "Код ОКПО должен состоять из 8 цифр.")
    let num := natOfDigits org_code.toList
    match st.rows.find? (fun o => o.num_code_okpo == some num) with
    | some org =>
        if !org.code_okpo then
          throw (.namespaceConflict "Этот числовой код уже используется как общий, не ОКПО.")
        return (org.id, st)
    | none =>
        let new_name := name.getD ("Организация с ОКПО " ++ org_code)
        let new_org : Org := ⟨st.nextId, none, new_name, true, none, some num⟩
        return (st.nextId, ⟨st.rows ++ [new_org], st.nextId + 1⟩)
  else
    if org_code.length ≠ 4 && org_code.length ≠ 8 then
      throw (.validation "Код организации должен иметь длину 4 (буквы) или 8 (цифры).")
    if org_code.length = 4 && !allUpperCyr org_code then
      throw (.validation "Код организации (буквы) должен состоять из 4 заглавных кириллических букв (А-Я).")
    if org_code.length = 8 && !allDigits org_code then
      throw (.validation "Код организации (цифры) должен состоять из 8 цифр.")
    let found :=
      if org_code.length = 4 then
        st.rows.find? (fun o => o.code == some org_code)
      else
        st.rows.find? (fun o => o.num_code == some (natOfDigits org_code.toList))
    match found with
    | some org =>
        if org_code.length = 8 && org.code_okpo then
          throw (.namespaceConflict "Этот код уже используется как ОКПО.")
        return (org.id, st)
    | none =>
        let new_name := name.getD ("Организация с кодом " ++ org_code)
        let new_org : Org :=
          ⟨st.nextId,
           if org_code.length = 4 then some org_code else none,
           new_name,
           false,
           if org_code.length = 8 then some (natOfDigits org_code.toList) else none,
           none⟩
        return (st.nextId, ⟨st.rows ++ [new_org], st.nextId + 1⟩)

/-- Result of `check_org_exists`: the `{'exists': bool, 'name'?: str}`
dictionary. -/
structure OrgExists where
  exists_b : Bool
  name : Option String
deriving Repr, DecidableEq

/-- `check_org_exists` (database.py lines 167-202): read-only existence
check; malformed codes yield `exists: False` instead of an error.  The
function takes the table and returns only a result: it performs no insert
or update. -/
def check_org_exists (st : Orgs) (org_code : String) (is_okpo : Bool) : OrgExists :=
  if org_code = "" then ⟨false, none⟩
  else if is_okpo then
    if org_code.length ≠ 8 || !allDigits org_code then ⟨false, none⟩
    else
      match st.rows.find? (fun o => o.num_code_okpo == some (natOfDigits org_code.toList)) with
      | some org => ⟨true, some org.name⟩
      | none => ⟨false, none⟩
  else
    if org_code.length = 4 then
      if !allUpperCyr org_code then ⟨false, none⟩
      else
        match st.rows.find? (fun o => o.code == some org_code) with
        | some org => ⟨true, some org.name⟩
        | none => ⟨false, none⟩
    else
      if org_code.length ≠ 8 || !allDigits org_code then ⟨false, none⟩
      else
        match st.rows.find? (fun o => o.num_code == some (natOfDigits org_code.toList)) with
        | some org => ⟨true, some org.name⟩
        | none => ⟨false, none⟩

/-- `get_or_create_class_id` (database.py lines 135-164): find-or-create a
class-code row.  `st` is the table the Python code selects via
`ClassCodeKD if is_kd else ClassCodeTD`; `is_kd` further fixes the
expected length (6 for KD, 7 for TD) and the error/description wording. -/
def get_or_create_class_id (st : Classes) (class_code : String) (is_kd : Bool) :
    Except Err (Nat × Classes) :=
  let expected : Nat := if is_kd then 6 else 7
  let kindStr : String := if is_kd then "КД" else "ТД"
  if class_code = "" || class_code.length ≠ expected then
    .error (.validation ("Код класса " ++ kindStr ++ " должен состоять из " ++
      toString expected ++ " цифр."))
  else if !allDigits class_code then
    .error (.validation ("Код класса " ++ kindStr ++ " должен состоять только из цифр."))
  else
    match st.rows.find? (fun c => c.code == class_code) with
    | some c => .ok (c.id, st)
    | none =>
        .ok (st.nextId,
             ⟨st.rows ++ [⟨st.nextId, class_code, "Класс " ++ kindStr ++ " " ++ class_code⟩],
              st.nextId + 1⟩)

/-- A `design_documents` row (models.py `DesignDocument`).  `org_code_str`
and `class_code_str` are nullable columns (the JSON API inserts leave them
NULL). -/
structure DDRow where
  id : Nat
  org_id : Nat
  kd_class_code_id : Nat
  prni : Int
  designation : String
  org_code_str : Option String
  class_code_str : Option String
deriving Repr, DecidableEq

/-- A `tech_documents` row (models.py `TechDocument`). -/
structure TDRow where
  id : Nat
  org_id : Nat
  td_class_code_id : Nat
  prn : Int
  designation : String
  org_code_str : Option String
  class_code_str : Option String
deriving Repr, DecidableEq

/-- A `documents` row (models.py `BaseDocument`), reduced to the fields the
allocation subsystem reads or constrains: surrogate id, the `DD`/`TD` kind
tag, and `file_name`, which models.py line 51 declares UNIQUE (among
non-NULL values; NULLs never collide).  The creation workflow leaves
`file_name` NULL, while the JSON create endpoints insert the empty
string. -/
structure BaseDoc where
  id : Nat
  type : String
  file_name : Option String
deriving Repr, DecidableEq

/-- The store state: the five tables the subsystem touches, each with its
id sequence (document ids come from the shared `documents` sequence). -/
structure DB where
  orgs : Orgs
  kdClasses : Classes
  tdClasses : Classes
  baseDocs : List BaseDoc
  dds : List DDRow
  tds : List TDRow
  nextDocId : Nat
deriving Repr, DecidableEq

/-- The freshly created store (`Base.metadata.create_all` on an empty
database; Postgres sequences start at 1). -/
def DB.empty : DB := ⟨⟨[], 1⟩, ⟨[], 1⟩, ⟨[], 1⟩, [], [], [], 1⟩

/-- The existing PRNI numbers of one `(org_id, kd_class_code_id)`
partition: the rows the `select(DesignDocument.prni).where(...)` query of
`get_next_prni` returns (the column is NOT NULL, so the Python `if row[0]
is not None` filter drops nothing). -/
def usedPrnis (dds : List DDRow) (org_id kd_class_code_id : Nat) : List Int :=
  (dds.filter (fun d => d.org_id == org_id && d.kd_class_code_id == kd_class_code_id)).map
    (fun d => d.prni)

/-- The existing PRN numbers of one `(org_id, td_class_code_id)`
partition. -/
def usedPrns (tds : List TDRow) (org_id td_class_code_id : Nat) : List Int :=
  (tds.filter (fun t => t.org_id == org_id && t.td_class_code_id == td_class_code_id)).map
    (fun t => t.prn)

/-- The `while next in used: next += 1` scan of `get_next_prni` /
`get_next_prn`.  The Python loop terminates because the used set is
finite; here the bound is made explicit as fuel, which the callers set
large enough that it is never exhausted. -/
def scanFree (used : List Int) (k : Int) (fuel : Nat) : Int :=
  match fuel with
  | 0 => k
  | fuel + 1 => if used.contains k then scanFree used (k + 1) fuel else k

/-- `get_next_prni` (database.py lines 205-224): smallest free PRNI of the
partition, scanning upward from 1. -/
def get_next_prni (dds : List DDRow) (org_id kd_class_code_id : Nat) : Int :=
  let used := usedPrnis dds org_id kd_class_code_id
  scanFree used 1 (used.length + 1)

/-- `get_next_prn` (database.py lines 228-247): smallest free PRN of the
partition. -/
def get_next_prn (tds : List TDRow) (org_id td_class_code_id : Nat) : Int :=
  let used := usedPrns tds org_id td_class_code_id
  scanFree used 1 (used.length + 1)

/-- `check_prni_unique` (database.py lines 251-264): true iff the manual
PRNI candidate is unused in the partition.  No code in the repository
calls it. -/
def check_prni_unique (dds : List DDRow) (org_id kd_class_code_id : Nat) (prni : Int) : Bool :=
  (dds.find? (fun d =>
    d.org_id == org_id && d.kd_class_code_id == kd_class_code_id && d.prni == prni)).isNone

/-- `check_prn_unique` (database.py lines 268-281); likewise uncalled. -/
def check_prn_unique (tds : List TDRow) (org_id td_class_code_id : Nat) (prn : Int) : Bool :=
  (tds.find? (fun t =>
    t.org_id == org_id && t.td_class_code_id == td_class_code_id && t.prn == prn)).isNone

/-- SQL `MAX` over a list of integers (`select(func.max(...))`): NULL on an
empty selection. -/
def sqlMaxInt : List Int → Option Int
  | [] => none
  | x :: xs => some (xs.foldl max x)

/-- The allocation the creation workflow actually performs when no manual
number is supplied (main.py lines 256-263 and 293-300):
`(max_prni or 0) + 1`.  (Python `or` maps both `None` and `0` to `0`,
which coincides with `getD 0`.) -/
def wfAutoPrni (dds : List DDRow) (org_id kd_class_code_id : Nat) : Int :=
  (sqlMaxInt (usedPrnis dds org_id kd_class_code_id)).getD 0 + 1

/-- TD counterpart of `wfAutoPrni` (main.py lines 293-300). -/
def wfAutoPrn (tds : List TDRow) (org_id td_class_code_id : Nat) : Int :=
  (sqlMaxInt (usedPrns tds org_id td_class_code_id)).getD 0 + 1

/-- Python `f-string` zero padding to width `w` of a non-negative decimal
string. -/
def zeroPadLeft (w : Nat) (s : String) : String :=
  String.mk (List.replicate (w - s.length) '0') ++ s

/-- Python `f"{n:03d}"`: total field width 3, the sign consuming width. -/
def intPad3 (n : Int) : String :=
  if 0 ≤ n then zeroPadLeft 3 (toString n.toNat)
  else "-" ++ zeroPadLeft 2 (toString (-n).toNat)

/-- The designation built by the creation workflow (main.py lines 265 and
302): `f"{org_code}.{class_code}.{number:03d}"`. -/
def mkDesignation (org_code class_code : String) (n : Int) : String :=
  org_code ++ "." ++ class_code ++ "." ++ intPad3 n

/-- The form fields `create_document_record` reads (main.py lines 212-219);
`form_data.get` yields `none` for an absent field. -/
structure WfInput where
  doc_type : Option String
  designation_method : Option String
  org_code : Option String
  class_code : Option String
  reg_number : Option String
  doc_name : Option String
  developed_by : Option String
deriving Repr, DecidableEq

/-- `create_document_record` (main.py lines 200-321), the document-creation
workflow: validates the form, adds the base row, resolves organization and
class, assigns the registration number (manual `int(reg_number)` when the
field is non-empty, otherwise max+1), builds the designation, adds the
kind-specific row and commits.  The commit makes the transaction durable
only if the new row's `designation` is absent from its table's UNIQUE
column; a violation raises an IntegrityError that this endpoint does not
catch, rolling back every row of the transaction. -/
def wfCreate (s : DB) (inp : WfInput) : Except Err (Nat × DB) := do
  if strFalsy inp.developed_by then
    throw (.validation "Необходимо указать ФИО разработчика.")
  if inp.doc_type ≠ some "DD" && inp.doc_type ≠ some "TD" then
    throw (.validation "Неверный тип документа.")
  let baseId := s.nextDocId
  if inp.doc_type = some "DD" && inp.designation_method = some "impersonal" then
    if strFalsy inp.org_code || strFalsy inp.class_code then
      throw (.validation "Код организации и код классификации обязательны.")
    let org_code := (inp.org_code).getD ""
    let class_code := (inp.class_code).getD ""
    let (org_id, orgs2) ← get_or_create_org_id s.orgs org_code false none
    let (class_code_id, kds2) ← get_or_create_class_id s.kdClasses class_code true
    let prni_to_save : Int ←
      match inp.reg_number with
      | some r =>
          if r ≠ "" then
            match parseIntStr r with
            | some v => pure v
            | none => throw (.validation "ПРНИ должен быть числом.")
          else pure (wfAutoPrni s.dds org_id class_code_id)
      | none => pure (wfAutoPrni s.dds org_id class_code_id)
    let designation := mkDesignation org_code class_code prni_to_save
    if (s.dds.map (fun d => d.designation)).contains designation then
      throw .integrityError
    return (baseId,
      { s with
        orgs := orgs2
        kdClasses := kds2
        baseDocs := s.baseDocs ++ [⟨baseId, "DD", none⟩]
        dds := s.dds ++
          [⟨baseId, org_id, class_code_id, prni_to_save, designation,
            some org_code, some class_code⟩]
        nextDocId := baseId + 1 })
  else if inp.doc_type = some "TD" && inp.designation_method = some "impersonal" then
    if strFalsy inp.org_code || strFalsy inp.class_code then
      throw (.validation "Код организации и код классификации обязательны.")
    let org_code := (inp.org_code).getD ""
    let class_code := (inp.class_code).getD ""
    let (org_id, orgs2) ← get_or_create_org_id s.orgs org_code false none
    let (class_code_id, tdcs2) ← get_or_create_class_id s.tdClasses class_code false
    let prn_to_save : Int ←
      match inp.reg_number with
      | some r =>
          if r ≠ "" then
            match parseIntStr r with
            | some v => pure v
            | none => throw (.validation "PRN должен быть числом.")
          else pure (wfAutoPrn s.tds org_id class_code_id)
      | none => pure (wfAutoPrn s.tds org_id class_code_id)
    let designation := mkDesignation org_code class_code prn_to_save
    if (s.tds.map (fun t => t.designation)).contains designation then
      throw .integrityError
    return (baseId,
      { s with
        orgs := orgs2
        tdClasses := tdcs2
        baseDocs := s.baseDocs ++ [⟨baseId, "TD", none⟩]
        tds := s.tds ++
          [⟨baseId, org_id, class_code_id, prn_to_save, designation,
            some org_code, some class_code⟩]
        nextDocId := baseId + 1 })
  else
    -- the `else: pass` branch (main.py lines 315-316): the base row alone
    -- is committed, with no kind-specific row
    return (baseId,
      { s with
        baseDocs := s.baseDocs ++ [⟨baseId, (inp.doc_type).getD "", none⟩]
        nextDocId := baseId + 1 })

/-- Body of a `POST /docs/design-documents/` request (schemas.py
`DesignDocumentCreate`; its `base_document_id` field is never read by the
endpoint and is omitted). -/
structure DDCreateIn where
  org_id : Nat
  kd_class_code_id : Nat
  prni : Int
  designation : String
deriving Repr, DecidableEq

/-- Body of a `POST /docs/tech-documents/` request. -/
structure TDCreateIn where
  org_id : Nat
  td_class_code_id : Nat
  prn : Int
  designation : String
deriving Repr, DecidableEq

/-- Whether the JSON create endpoint's commit violates a database
constraint: the UNIQUE `designation` column, the foreign keys to
`organizations` and `class_codes_kd`, or the UNIQUE `documents.file_name`
column — the endpoint inserts `file_name=""`, which collides with any
existing base row whose `file_name` is also the empty string. -/
def ddInsertViolation (s : DB) (dd : DDRow) : Bool :=
  (s.dds.map (fun d => d.designation)).contains dd.designation
    || !(s.orgs.rows.any (fun o => o.id == dd.org_id))
    || !(s.kdClasses.rows.any (fun c => c.id == dd.kd_class_code_id))
    || (s.baseDocs.any (fun b => b.file_name == some ""))

/-- TD counterpart of `ddInsertViolation`, including the same
`documents.file_name` UNIQUE check. -/
def tdInsertViolation (s : DB) (td : TDRow) : Bool :=
  (s.tds.map (fun t => t.designation)).contains td.designation
    || !(s.orgs.rows.any (fun o => o.id == td.org_id))
    || !(s.tdClasses.rows.any (fun c => c.id == td.td_class_code_id))
    || (s.baseDocs.any (fun b => b.file_name == some ""))

/-- `create_design_document` (docs.py lines 47-83): adds the base row and a
`DesignDocument` row taken verbatim from the client body, commits, and on
IntegrityError rolls the whole transaction back and answers 400. -/
def apiCreateDD (s : DB) (inp : DDCreateIn) : Except Err (Nat × DB) :=
  let baseId := s.nextDocId
  let dd : DDRow := ⟨baseId, inp.org_id, inp.kd_class_code_id, inp.prni, inp.designation,
    none, none⟩
  if ddInsertViolation s dd then
    .error (.duplicateDesignation "Design Document with this designation already exists.")
  else
    .ok (baseId,
      { s with
        baseDocs := s.baseDocs ++ [⟨baseId, "DD", some ""⟩]
        dds := s.dds ++ [dd]
        nextDocId := baseId + 1 })

/-- `create_tech_document` (docs.py lines 86-122). -/
def apiCreateTD (s : DB) (inp : TDCreateIn) : Except Err (Nat × DB) :=
  let baseId := s.nextDocId
  let td : TDRow := ⟨baseId, inp.org_id, inp.td_class_code_id, inp.prn, inp.designation,
    none, none⟩
  if tdInsertViolation s td then
    .error (.duplicateDesignation "Tech Document with this designation already exists.")
  else
    .ok (baseId,
      { s with
        baseDocs := s.baseDocs ++ [⟨baseId, "TD", some ""⟩]
        tds := s.tds ++ [td]
        nextDocId := baseId + 1 })

/-- Whether committing the updated row violates a database constraint: its
new `designation` equalling any other row's, or a broken foreign key. -/
def ddUpdateViolation (s : DB) (doc_id : Nat) (inp : DDCreateIn) : Bool :=
  ((s.dds.filter (fun d => d.id ≠ doc_id)).map (fun d => d.designation)).contains
      inp.designation
    || !(s.orgs.rows.any (fun o => o.id == inp.org_id))
    || !(s.kdClasses.rows.any (fun c => c.id == inp.kd_class_code_id))

/-- TD counterpart of `ddUpdateViolation`. -/
def tdUpdateViolation (s : DB) (doc_id : Nat) (inp : TDCreateIn) : Bool :=
  ((s.tds.filter (fun t => t.id ≠ doc_id)).map (fun t => t.designation)).contains
      inp.designation
    || !(s.orgs.rows.any (fun o => o.id == inp.org_id))
    || !(s.tdClasses.rows.any (fun c => c.id == inp.td_class_code_id))

/-- `update_design_document` (docs.py lines 151-171): overwrites the four
mutable fields of the row with the client body and commits; a constraint
violation at commit (UNIQUE designation against any other row, or a
foreign key) is not caught by this endpoint, so the transaction rolls
back. -/
def apiUpdateDD (s : DB) (doc_id : Nat) (inp : DDCreateIn) : Except Err (Nat × DB) :=
  match s.dds.find? (fun d => d.id == doc_id) with
  | none => .error (.notFound "Design Document not found")
  | some _ =>
      if ddUpdateViolation s doc_id inp then
        .error .integrityError
      else
        .ok (doc_id,
          { s with
            dds := s.dds.map (fun d =>
              if d.id = doc_id then
                { d with
                  org_id := inp.org_id
                  kd_class_code_id := inp.kd_class_code_id
                  prni := inp.prni
                  designation := inp.designation }
              else d) })

/-- `update_tech_document` (docs.py lines 174-194). -/
def apiUpdateTD (s : DB) (doc_id : Nat) (inp : TDCreateIn) : Except Err (Nat × DB) :=
  match s.tds.find? (fun t => t.id == doc_id) with
  | none => .error (.notFound "Tech Document not found")
  | some _ =>
      if tdUpdateViolation s doc_id inp then
        .error .integrityError
      else
        .ok (doc_id,
          { s with
            tds := s.tds.map (fun t =>
              if t.id = doc_id then
                { t with
                  org_id := inp.org_id
                  td_class_code_id := inp.td_class_code_id
                  prn := inp.prn
                  designation := inp.designation }
              else t) })

/-- Document deletion: `delete_document` in main.py (lines 436-478)
explicitly deletes the kind-specific rows and the base row; the docs.py
endpoint (lines 197-213) deletes the base row with the ORM cascading the
same child deletes (models.py `cascade="all, delete-orphan"`).  Both reduce
to removing every row carrying the document id. -/
def deleteDocument (s : DB) (doc_id : Nat) : Except Err (Nat × DB) :=
  match s.baseDocs.find? (fun b => b.id == doc_id) with
  | none => .error (.notFound "Документ не найден")
  | some _ =>
      .ok (doc_id,
        { s with
          baseDocs := s.baseDocs.filter (fun b => b.id ≠ doc_id)
          dds := s.dds.filter (fun d => d.id ≠ doc_id)
          tds := s.tds.filter (fun t => t.id ≠ doc_id) })

/-- The store an operation leaves behind: the new state on a committed
transaction, the unchanged state when the operation raised (the
request-scoped transaction rolls back). -/
def afterEx (r : Except Err (Nat × DB)) (s : DB) : DB :=
  match r with
  | .ok (_, s2) => s2
  | .error _ => s

/-- Store states reachable from the fresh store through the exposed
document operations: the creation workflow, the JSON create/update
endpoints, and deletion. -/
inductive Reachable : DB → Prop where
  | empty : Reachable DB.empty
  | wf (s : DB) (inp : WfInput) : Reachable s → Reachable (afterEx (wfCreate s inp) s)
  | createDD (s : DB) (inp : DDCreateIn) : Reachable s →
      Reachable (afterEx (apiCreateDD s inp) s)
  | createTD (s : DB) (inp : TDCreateIn) : Reachable s →
      Reachable (afterEx (apiCreateTD s inp) s)
  | updateDD (s : DB) (doc_id : Nat) (inp : DDCreateIn) : Reachable s →
      Reachable (afterEx (apiUpdateDD s doc_id inp) s)
  | updateTD (s : DB) (doc_id : Nat) (inp : TDCreateIn) : Reachable s →
      Reachable (afterEx (apiUpdateTD s doc_id inp) s)
  | del (s : DB) (doc_id : Nat) : Reachable s →
      Reachable (afterEx (deleteDocument s doc_id) s)

/-! ### General list lemmas -/

lemma contains_iff_mem {α : Type} [BEq α] [LawfulBEq α] (l : List α) (a : α) :
    l.contains a = true ↔ a ∈ l := by
  simp [List.contains_iff_exists_mem_beq]

lemma length_filter_mono {α : Type} (l : List α) (p q : α → Bool)
    (h : ∀ x, q x = true → p x = true) :
    (l.filter q).length ≤ (l.filter p).length := by
  induction l with
  | nil => simp
  | cons b t ih =>
      by_cases hq : q b
      · have hp := h b hq
        simp [List.filter_cons, hq, hp]
        omega
      · simp only [List.filter_cons]
        by_cases hp : p b <;> simp [hq, hp] <;> omega

lemma length_filter_strict {α : Type} (l : List α) (p q : α → Bool)
    (h : ∀ x, q x = true → p x = true) (a : α) (ha : a ∈ l)
    (hpa : p a = true) (hqa : q a = false) :
    (l.filter q).length < (l.filter p).length := by
  induction l with
  | nil => cases ha
  | cons b t ih =>
      rcases List.mem_cons.mp ha with hb | hb
      · subst hb
        have hle := length_filter_mono t p q h
        simp [List.filter_cons, hpa, hqa]
        omega
      · have hlt := ih hb
        simp only [List.filter_cons]
        by_cases hq : q b
        · have hp := h b hq
          simp [hq, hp]
          omega
        · by_cases hp : p b <;> simp [hq, hp] <;> omega

lemma le_foldl_max (xs : List Int) : ∀ (a x : Int), x = a ∨ x ∈ xs → x ≤ xs.foldl max a := by
  induction xs with
  | nil =>
      intro a x h
      rcases h with h | h
      · subst h; simp
      · cases h
  | cons b t ih =>
      intro a x h
      simp only [List.foldl_cons]
      rcases h with h | h
      · exact le_trans (by omega : x ≤ max a b) (ih (max a b) (max a b) (Or.inl rfl))
      · rcases List.mem_cons.mp h with hb | ht
        · exact le_trans (by subst hb; omega : x ≤ max a b) (ih (max a b) (max a b) (Or.inl rfl))
        · exact ih (max a b) x (Or.inr ht)

/-! ### The gap-filling scan (database.py get_next_prni / get_next_prn) -/

/-- As long as the fuel exceeds the number of used values at or above the
scan position, the `while next in used` loop of database.py returns the
smallest integer that is at least the start position and not used. -/
lemma scanFree_spec (used : List Int) : ∀ (fuel : Nat) (k : Int),
    (used.filter (fun x => decide (k ≤ x))).length < fuel →
    scanFree used k fuel ∉ used ∧ k ≤ scanFree used k fuel ∧
      ∀ m : Int, k ≤ m → m < scanFree used k fuel → m ∈ used := by
  intro fuel
  induction fuel with
  | zero => intro k h; omega
  | succ f ih =>
      intro k h
      have hunfold : scanFree used k (f + 1) =
          if used.contains k then scanFree used (k + 1) f else k := rfl
      by_cases hk : used.contains k
      · have hkmem : k ∈ used := (contains_iff_mem used k).mp hk
        have hstep : scanFree used k (f + 1) = scanFree used (k + 1) f := by
          rw [hunfold, if_pos hk]
        have hlt : ((used.filter (fun x => decide (k + 1 ≤ x))).length <
            (used.filter (fun x => decide (k ≤ x))).length) := by
          refine length_filter_strict used _ _ ?_ k hkmem (by simp) (by simp)
          intro x hx
          simp only [decide_eq_true_eq] at hx ⊢
          omega
        obtain ⟨h1, h2, h3⟩ := ih (k + 1) (by omega)
        rw [hstep]
        refine ⟨h1, by omega, ?_⟩
        intro m hm1 hm2
        rcases eq_or_lt_of_le hm1 with he | hl
        · exact he ▸ hkmem
        · exact h3 m (by omega) hm2
      · have hstep : scanFree used k (f + 1) = k := by rw [hunfold, if_neg hk]
        rw [hstep]
        refine ⟨?_, le_refl _, ?_⟩
        · intro hmem
          exact hk ((contains_iff_mem used k).mpr hmem)
        · intro m hm1 hm2
          omega

/-- Specialisation to the allocators: result is positive, unused, and every
smaller positive integer is used. -/
lemma nextFreeInt_spec (used : List Int) :
    let r := scanFree used 1 (used.length + 1)
    r ∉ used ∧ 1 ≤ r ∧ ∀ m : Int, 1 ≤ m → m < r → m ∈ used := by
  refine scanFree_spec used (used.length + 1) 1 ?_
  have := List.length_filter_le (fun x => decide ((1 : Int) ≤ x)) used
  omega

/-- C1: for every partition, `get_next_prni` (DD) and `get_next_prn` (TD)
return the smallest strictly-positive integer not present among the
partition's existing numbers; in particular the result is never a number
already present there. -/
theorem C1_lowest_free_number (dds : List DDRow) (tds : List TDRow) (org cls : Nat) :
    (get_next_prni dds org cls ∉ usedPrnis dds org cls ∧
      1 ≤ get_next_prni dds org cls ∧
      ∀ m : Int, 1 ≤ m → m < get_next_prni dds org cls → m ∈ usedPrnis dds org cls) ∧
    (get_next_prn tds org cls ∉ usedPrns tds org cls ∧
      1 ≤ get_next_prn tds org cls ∧
      ∀ m : Int, 1 ≤ m → m < get_next_prn tds org cls → m ∈ usedPrns tds org cls) :=
  ⟨nextFreeInt_spec (usedPrnis dds org cls), nextFreeInt_spec (usedPrns tds org cls)⟩

/-- Partition with numbers {1, 2, 4} (the spec's gap example), used to
instantiate C1. -/
def c1rows : List DDRow :=
  [⟨1, 1, 1, 1, "АБВГ.123456.001", some "АБВГ", some "123456"⟩,
   ⟨2, 1, 1, 2, "АБВГ.123456.002", some "АБВГ", some "123456"⟩,
   ⟨3, 1, 1, 4, "АБВГ.123456.004", some "АБВГ", some "123456"⟩]

/-- C1 at the spec's own example: with numbers {1, 2, 4} the allocator
fills the gap with 3, which is not among the existing numbers. -/
theorem C1_lowest_free_number_witness :
    get_next_prni c1rows 1 1 = 3 ∧ (3 : Int) ∉ usedPrnis c1rows 1 1 ∧
      (1 : Int) ≤ get_next_prni c1rows 1 1 := by
  have h := C1_lowest_free_number c1rows [] 1 1
  have he : get_next_prni c1rows 1 1 = 3 := by decide
  exact ⟨he, he ▸ h.1.1, h.1.2.1⟩

/-! ### C2: workflow allocation policy vs the gap-filling allocator -/

lemma mem_le_sqlMax (used : List Int) (x : Int) (hx : x ∈ used) :
    x ≤ (sqlMaxInt used).getD 0 := by
  cases used with
  | nil => cases hx
  | cons b t =>
      rcases List.mem_cons.mp hx with hb | ht
      · exact le_foldl_max t b x (Or.inl hb)
      · exact le_foldl_max t b x (Or.inr ht)

/-- A store on which the two allocation policies disagree: the partition
holds the single number 2 (a gap at 1), reachable e.g. after a manual
registration of number 2. -/
def c2state : DB :=
  ⟨⟨[⟨1, some "АБВГ", "Организация с кодом АБВГ", false, none, none⟩], 2⟩,
   ⟨[⟨1, "123456", "Класс КД 123456"⟩], 2⟩,
   ⟨[], 1⟩,
   [⟨1, "DD", none⟩],
   [⟨1, 1, 1, 2, "АБВГ.123456.002", some "АБВГ", some "123456"⟩],
   [],
   2⟩

/-- A creation request for the same partition with no manual number. -/
def c2inp : WfInput :=
  ⟨some "DD", some "impersonal", some "АБВГ", some "123456", none, some "doc", some "dev"⟩

/-- C2 counterexample: on the partition with existing numbers {2}, the
workflow assigns 3 (max + 1), while the gap-filling allocator's lowest
free number is 1 — so the workflow's allocation policy and the allocator
do not compute the same value on every input. -/
theorem C2_counterexample :
    ((wfCreate c2state c2inp).toOption.map (fun p => p.2.dds.map (fun d => d.prni)) =
      some [2, 3]) ∧
    get_next_prni c2state.dds 1 1 = 1 := by decide

/-- C2 (amended): when the caller supplies no manual number the workflow
assigns `(max existing or 0) + 1`; on partitions whose numbers are
positive, this equals the gap-filling allocator's lowest free number if
and only if the partition has no gaps, i.e. every integer from 1 up to the
partition maximum is already present. -/
theorem C2_max_plus_one_iff_gapfree (dds : List DDRow) (org cls : Nat)
    (hpos : ∀ x ∈ usedPrnis dds org cls, (1 : Int) ≤ x) :
    wfAutoPrni dds org cls = get_next_prni dds org cls ↔
      ∀ k : Int, 1 ≤ k → k ≤ (sqlMaxInt (usedPrnis dds org cls)).getD 0 →
        k ∈ usedPrnis dds org cls := by
  obtain ⟨hN1, hN2, hN3⟩ := nextFreeInt_spec (usedPrnis dds org cls)
  set used := usedPrnis dds org cls with hused
  set M : Int := (sqlMaxInt used).getD 0 with hM
  have hNdef : get_next_prni dds org cls = scanFree used 1 (used.length + 1) := rfl
  have hAdef : wfAutoPrni dds org cls = M + 1 := rfl
  set N : Int := scanFree used 1 (used.length + 1) with hNd
  rw [hAdef, hNdef]
  constructor
  · intro heq k hk1 hk2
    by_contra hkn
    have hNk : ¬ k < N := fun hlt => hkn (hN3 k hk1 hlt)
    omega
  · intro hall
    have hM0 : 0 ≤ M := by
      cases hu : used with
      | nil => simp [hM, hu, sqlMaxInt]
      | cons b t =>
          have hb : b ∈ used := by rw [hu]; exact List.mem_cons_self b t
          have := hpos b hb
          have := mem_le_sqlMax used b hb
          omega
    have hMn : (M + 1) ∉ used := by
      intro hmem
      have := mem_le_sqlMax used (M + 1) hmem
      omega
    have hNleM : N ≤ M + 1 := by
      by_contra hgt
      exact hMn (hN3 (M + 1) (by omega) (by omega))
    have hMleN : M + 1 ≤ N := by
      by_contra hlt
      exact hN1 (hall N hN2 (by omega))
    omega

/-- Gap-free partition {1, 2}, used to instantiate the amended C2. -/
def c2wrows : List DDRow :=
  [⟨1, 1, 1, 1, "АБВГ.123456.001", some "АБВГ", some "123456"⟩,
   ⟨2, 1, 1, 2, "АБВГ.123456.002", some "АБВГ", some "123456"⟩]

/-- Amended C2 instantiated: on the gap-free partition {1, 2} the two
policies agree (both yield 3). -/
theorem C2_max_plus_one_iff_gapfree_witness :
    wfAutoPrni c2wrows 1 1 = get_next_prni c2wrows 1 1 := by
  refine (C2_max_plus_one_iff_gapfree c2wrows 1 1 (by decide)).mpr ?_
  intro k hk1 hk2
  have h2 : (sqlMaxInt (usedPrnis c2wrows 1 1)).getD 0 = 2 := by decide
  rw [h2] at hk2
  have hk : k = 1 ∨ k = 2 := by omega
  rcases hk with hk | hk <;> subst hk <;> decide

/-! ### Monad-reduction lemmas and a case analysis of the creation workflow -/

@[simp] lemma eBind_ok {α β : Type} (a : α) (k : α → Except Err β) :
    (Except.ok a : Except Err α) >>= k = k a := rfl

@[simp] lemma eBind_err {α β : Type} (e : Err) (k : α → Except Err β) :
    (Except.error e : Except Err α) >>= k = Except.error e := rfl

@[simp] lemma eThrow {α : Type} (e : Err) : (throw e : Except Err α) = Except.error e := rfl

@[simp] lemma ePure {α : Type} (a : α) : (pure a : Except Err α) = Except.ok a := rfl

@[simp] lemma eMap_err {α β : Type} (f : α → β) (e : Err) :
    f <$> (Except.error e : Except Err α) = Except.error e := rfl

lemma wfCreate_shape (s : DB) (inp : WfInput) :
    (∃ e, wfCreate s inp = .error e) ∨
    (∃ s2, wfCreate s inp = .ok (s.nextDocId, s2) ∧
      s2.nextDocId = s.nextDocId + 1 ∧
      ((∃ dd : DDRow, inp.doc_type = some "DD" ∧
          s2.baseDocs = s.baseDocs ++ [⟨s.nextDocId, "DD", none⟩] ∧
          s2.dds = s.dds ++ [dd] ∧ dd.id = s.nextDocId ∧
          (¬ ∃ d ∈ s.dds, d.designation = dd.designation) ∧
          s2.tds = s.tds) ∨
       (∃ td : TDRow, inp.doc_type = some "TD" ∧
          s2.baseDocs = s.baseDocs ++ [⟨s.nextDocId, "TD", none⟩] ∧
          s2.tds = s.tds ++ [td] ∧ td.id = s.nextDocId ∧
          (¬ ∃ t ∈ s.tds, t.designation = td.designation) ∧
          s2.dds = s.dds) ∨
       (s2.baseDocs = s.baseDocs ++ [⟨s.nextDocId, (inp.doc_type).getD "", none⟩] ∧
          s2.dds = s.dds ∧ s2.tds = s.tds ∧
          ¬(inp.doc_type = some "DD" ∧ inp.designation_method = some "impersonal") ∧
          ¬(inp.doc_type = some "TD" ∧ inp.designation_method = some "impersonal")))) := by
  by_cases h1 : strFalsy inp.developed_by
  · exact Or.inl ⟨_, by simp [wfCreate, h1]; rfl⟩
  by_cases h2 : inp.doc_type ≠ some "DD" ∧ inp.doc_type ≠ some "TD"
  · exact Or.inl ⟨_, by simp [wfCreate, h1, h2]; rfl⟩
  by_cases h3 : inp.doc_type = some "DD" ∧ inp.designation_method = some "impersonal"
  · by_cases h4 : strFalsy inp.org_code ∨ strFalsy inp.class_code
    · exact Or.inl ⟨_, by simp [wfCreate, h1, h2, h3, h4]; rfl⟩
    cases hor : get_or_create_org_id s.orgs ((inp.org_code).getD "") false none with
    | error e => exact Or.inl ⟨e, by simp [wfCreate, h1, h2, h3, h4, hor]⟩
    | ok por =>
      obtain ⟨oid, orgs2⟩ := por
      cases hcl : get_or_create_class_id s.kdClasses ((inp.class_code).getD "") true with
      | error e => exact Or.inl ⟨e, by simp [wfCreate, h1, h2, h3, h4, hor, hcl]⟩
      | ok pcl =>
        obtain ⟨cid, kds2⟩ := pcl
        cases hr : inp.reg_number with
        | none =>
          by_cases hc : ∃ d ∈ s.dds, d.designation =
              mkDesignation ((inp.org_code).getD "") ((inp.class_code).getD "")
                (wfAutoPrni s.dds oid cid)
          · exact Or.inl ⟨_, by simp [wfCreate, h1, h2, h3, h4, hor, hcl, hr, hc]; rfl⟩
          · have heq : wfCreate s inp = Except.ok (s.nextDocId,
                { s with
                  orgs := orgs2
                  kdClasses := kds2
                  baseDocs := s.baseDocs ++ [⟨s.nextDocId, "DD", none⟩]
                  dds := s.dds ++
                    [⟨s.nextDocId, oid, cid, (wfAutoPrni s.dds oid cid),
                      mkDesignation ((inp.org_code).getD "") ((inp.class_code).getD "") (wfAutoPrni s.dds oid cid),
                      some ((inp.org_code).getD ""), some ((inp.class_code).getD "")⟩]
                  nextDocId := s.nextDocId + 1 }) := by
              simp [wfCreate, h1, h2, h3, h4, hor, hcl, hr, hc]
            exact Or.inr ⟨_, heq, rfl, Or.inl ⟨_, h3.1, rfl, rfl, rfl, hc, rfl⟩⟩
        | some r =>
          by_cases hre : r = ""
          · by_cases hc : ∃ d ∈ s.dds, d.designation =
                mkDesignation ((inp.org_code).getD "") ((inp.class_code).getD "")
                  (wfAutoPrni s.dds oid cid)
            · exact Or.inl ⟨_, by simp [wfCreate, h1, h2, h3, h4, hor, hcl, hr, hre, hc]; rfl⟩
            · have heq : wfCreate s inp = Except.ok (s.nextDocId,
                  { s with
                    orgs := orgs2
                    kdClasses := kds2
                    baseDocs := s.baseDocs ++ [⟨s.nextDocId, "DD", none⟩]
                    dds := s.dds ++
                      [⟨s.nextDocId, oid, cid, (wfAutoPrni s.dds oid cid),
                        mkDesignation ((inp.org_code).getD "") ((inp.class_code).getD "") (wfAutoPrni s.dds oid cid),
                        some ((inp.org_code).getD ""), some ((inp.class_code).getD "")⟩]
                    nextDocId := s.nextDocId + 1 }) := by
                simp [wfCreate, h1, h2, h3, h4, hor, hcl, hr, hre, hc]
              exact Or.inr ⟨_, heq, rfl, Or.inl ⟨_, h3.1, rfl, rfl, rfl, hc, rfl⟩⟩
          · cases hp : parseIntStr r with
            | none =>
                exact Or.inl ⟨_, by simp [wfCreate, h1, h2, h3, h4, hor, hcl, hr, hre, hp]; rfl⟩
            | some v =>
              by_cases hc : ∃ d ∈ s.dds, d.designation =
                  mkDesignation ((inp.org_code).getD "") ((inp.class_code).getD "") v
              · exact Or.inl ⟨_,
                  by simp [wfCreate, h1, h2, h3, h4, hor, hcl, hr, hre, hp, hc]; rfl⟩
              · have heq : wfCreate s inp = Except.ok (s.nextDocId,
                    { s with
                      orgs := orgs2
                      kdClasses := kds2
                      baseDocs := s.baseDocs ++ [⟨s.nextDocId, "DD", none⟩]
                      dds := s.dds ++
                        [⟨s.nextDocId, oid, cid, v,
                          mkDesignation ((inp.org_code).getD "") ((inp.class_code).getD "") v,
                          some ((inp.org_code).getD ""), some ((inp.class_code).getD "")⟩]
                      nextDocId := s.nextDocId + 1 }) := by
                  simp [wfCreate, h1, h2, h3, h4, hor, hcl, hr, hre, hp, hc]
                exact Or.inr ⟨_, heq, rfl, Or.inl ⟨_, h3.1, rfl, rfl, rfl, hc, rfl⟩⟩
  · by_cases h5 : inp.doc_type = some "TD" ∧ inp.designation_method = some "impersonal"
    · by_cases h4 : strFalsy inp.org_code ∨ strFalsy inp.class_code
      · exact Or.inl ⟨_, by simp [wfCreate, h1, h2, h3, h5, h4]; rfl⟩
      cases hor : get_or_create_org_id s.orgs ((inp.org_code).getD "") false none with
      | error e => exact Or.inl ⟨e, by simp [wfCreate, h1, h2, h3, h5, h4, hor]⟩
      | ok por =>
        obtain ⟨oid, orgs2⟩ := por
        cases hcl : get_or_create_class_id s.tdClasses ((inp.class_code).getD "") false with
        | error e => exact Or.inl ⟨e, by simp [wfCreate, h1, h2, h3, h5, h4, hor, hcl]⟩
        | ok pcl =>
          obtain ⟨cid, tdcs2⟩ := pcl
          cases hr : inp.reg_number with
          | none =>
            by_cases hc : ∃ t ∈ s.tds, t.designation =
                mkDesignation ((inp.org_code).getD "") ((inp.class_code).getD "")
                  (wfAutoPrn s.tds oid cid)
            · exact Or.inl ⟨_, by simp [wfCreate, h1, h2, h3, h5, h4, hor, hcl, hr, hc]; rfl⟩
            · have heq : wfCreate s inp = Except.ok (s.nextDocId,
                  { s with
                    orgs := orgs2
                    tdClasses := tdcs2
                    baseDocs := s.baseDocs ++ [⟨s.nextDocId, "TD", none⟩]
                    tds := s.tds ++
                      [⟨s.nextDocId, oid, cid, (wfAutoPrn s.tds oid cid),
                        mkDesignation ((inp.org_code).getD "") ((inp.class_code).getD "") (wfAutoPrn s.tds oid cid),
                        some ((inp.org_code).getD ""), some ((inp.class_code).getD "")⟩]
                    nextDocId := s.nextDocId + 1 }) := by
                simp [wfCreate, h1, h2, h3, h5, h4, hor, hcl, hr, hc]
              exact Or.inr ⟨_, heq, rfl, Or.inr (Or.inl ⟨_, h5.1, rfl, rfl, rfl, hc, rfl⟩)⟩
          | some r =>
            by_cases hre : r = ""
            · by_cases hc : ∃ t ∈ s.tds, t.designation =
                  mkDesignation ((inp.org_code).getD "") ((inp.class_code).getD "")
                    (wfAutoPrn s.tds oid cid)
              · exact Or.inl ⟨_,
                  by simp [wfCreate, h1, h2, h3, h5, h4, hor, hcl, hr, hre, hc]; rfl⟩
              · have heq : wfCreate s inp = Except.ok (s.nextDocId,
                    { s with
                      orgs := orgs2
                      tdClasses := tdcs2
                      baseDocs := s.baseDocs ++ [⟨s.nextDocId, "TD", none⟩]
                      tds := s.tds ++
                        [⟨s.nextDocId, oid, cid, (wfAutoPrn s.tds oid cid),
                          mkDesignation ((inp.org_code).getD "") ((inp.class_code).getD "") (wfAutoPrn s.tds oid cid),
                          some ((inp.org_code).getD ""), some ((inp.class_code).getD "")⟩]
                      nextDocId := s.nextDocId + 1 }) := by
                  simp [wfCreate, h1, h2, h3, h5, h4, hor, hcl, hr, hre, hc]
                exact Or.inr ⟨_, heq, rfl, Or.inr (Or.inl ⟨_, h5.1, rfl, rfl, rfl, hc, rfl⟩)⟩
            · cases hp : parseIntStr r with
              | none =>
                  exact Or.inl ⟨_,
                    by simp [wfCreate, h1, h2, h3, h5, h4, hor, hcl, hr, hre, hp]; rfl⟩
              | some v =>
                by_cases hc : ∃ t ∈ s.tds, t.designation =
                    mkDesignation ((inp.org_code).getD "") ((inp.class_code).getD "") v
                · exact Or.inl ⟨_,
                    by simp [wfCreate, h1, h2, h3, h5, h4, hor, hcl, hr, hre, hp, hc]; rfl⟩
                · have heq : wfCreate s inp = Except.ok (s.nextDocId,
                      { s with
                        orgs := orgs2
                        tdClasses := tdcs2
                        baseDocs := s.baseDocs ++ [⟨s.nextDocId, "TD", none⟩]
                        tds := s.tds ++
                          [⟨s.nextDocId, oid, cid, v,
                            mkDesignation ((inp.org_code).getD "") ((inp.class_code).getD "") v,
                            some ((inp.org_code).getD ""), some ((inp.class_code).getD "")⟩]
                        nextDocId := s.nextDocId + 1 }) := by
                    simp [wfCreate, h1, h2, h3, h5, h4, hor, hcl, hr, hre, hp, hc]
                  exact Or.inr ⟨_, heq, rfl, Or.inr (Or.inl ⟨_, h5.1, rfl, rfl, rfl, hc, rfl⟩)⟩
    · have heq : wfCreate s inp = Except.ok (s.nextDocId,
          { s with
            baseDocs := s.baseDocs ++ [⟨s.nextDocId, (inp.doc_type).getD "", none⟩]
            nextDocId := s.nextDocId + 1 }) := by
        simp [wfCreate, h1, h2, h3, h5]
      exact Or.inr ⟨_, heq, rfl, Or.inr (Or.inr ⟨rfl, rfl, rfl, h3, h5⟩)⟩

/-! ### Uniqueness invariants of reachable stores -/

lemma nodup_map_append_single {α β : Type} (l : List α) (f : α → β) (x : α)
    (h : (l.map f).Nodup) (hx : ¬ ∃ a ∈ l, f a = f x) :
    ((l ++ [x]).map f).Nodup := by
  rw [List.map_append, List.nodup_append]
  refine ⟨h, List.nodup_singleton _, ?_⟩
  intro y hy
  simp only [List.map_cons, List.map_nil, List.mem_singleton]
  intro he
  rcases List.mem_map.mp hy with ⟨a, ha, hfa⟩
  exact hx ⟨a, ha, by rw [hfa, he]⟩

lemma map_proj_update {α β : Type} (l : List α) (pid : α → Nat) (g : α → β)
    (doc_id : Nat) (u : α → α) (hg : ∀ x, g (u x) = g x) :
    ((l.map (fun x => if pid x = doc_id then u x else x)).map g) = l.map g := by
  rw [List.map_map]
  apply List.map_congr_left
  intro x hx
  by_cases h : pid x = doc_id <;> simp [h, hg]

lemma nodup_map_ite_update {α β : Type} (l : List α) (pid : α → Nat) (f : α → β)
    (doc_id : Nat) (u : α → α) (newv : β)
    (hu : ∀ x, f (u x) = newv)
    (hIds : (l.map pid).Nodup)
    (hDes : (l.map f).Nodup)
    (hNew : ∀ x ∈ l, pid x ≠ doc_id → f x ≠ newv) :
    ((l.map (fun x => if pid x = doc_id then u x else x)).map f).Nodup := by
  induction l with
  | nil => simp
  | cons a t ih =>
      have hIds2 := List.nodup_cons.mp hIds
      have hDes2 := List.nodup_cons.mp hDes
      by_cases ha : pid a = doc_id
      · have hat : ∀ x ∈ t, pid x ≠ doc_id := by
          intro x hx hxe
          exact hIds2.1 (by rw [ha, ← hxe]; exact List.mem_map_of_mem pid hx)
        have ht_id : t.map (fun x => if pid x = doc_id then u x else x) = t := by
          have h2 := List.map_congr_left (l := t)
            (f := fun x => if pid x = doc_id then u x else x) (g := id) ?_
          · simpa using h2
          · intro x hx
            simp [hat x hx]
        simp only [List.map_cons, ha, if_true, ht_id, hu]
        rw [List.nodup_cons]
        refine ⟨?_, hDes2.2⟩
        intro hmem
        rcases List.mem_map.mp hmem with ⟨x, hx, hfx⟩
        exact hNew x (List.mem_cons_of_mem a hx) (hat x hx) hfx
      · simp only [List.map_cons, ha, if_false]
        rw [List.nodup_cons]
        constructor
        · intro hmem
          rcases List.mem_map.mp hmem with ⟨x, hx, hfx⟩
          rcases List.mem_map.mp hx with ⟨y, hy, hxy⟩
          by_cases hyid : pid y = doc_id
          · have hxx : x = u y := by
              rw [← hxy]; simp [hyid]
            rw [hxx, hu] at hfx
            exact hNew a (List.mem_cons_self a t) ha hfx.symm
          · have hxx : x = y := by
              rw [← hxy]; simp [hyid]
            rw [hxx] at hfx
            exact hDes2.1 (by rw [← hfx]; exact List.mem_map_of_mem f hy)
        · exact ih hIds2.2 hDes2.2 (fun x hx => hNew x (List.mem_cons_of_mem a hx))

/-- The store invariants maintained by the database constraints: document
ids are unique and below the sequence counter, and each kind table's
`designation` column is duplicate-free (its UNIQUE constraint). -/
def Inv (s : DB) : Prop :=
  (s.dds.map (fun d => d.id)).Nodup ∧ (s.tds.map (fun t => t.id)).Nodup ∧
  (∀ d ∈ s.dds, d.id < s.nextDocId) ∧ (∀ t ∈ s.tds, t.id < s.nextDocId) ∧
  (s.dds.map (fun d => d.designation)).Nodup ∧ (s.tds.map (fun t => t.designation)).Nodup

lemma inv_empty : Inv DB.empty := by
  refine ⟨?_, ?_, ?_, ?_, ?_, ?_⟩ <;> simp [DB.empty]

lemma no_fresh_id {α : Type} (l : List α) (pid : α → Nat) (n : Nat)
    (h : ∀ d ∈ l, pid d < n) : ¬ ∃ a ∈ l, pid a = n := by
  rintro ⟨a, ha, he⟩
  have := h a ha
  omega

lemma contains_false_no_mem {α : Type} [BEq α] [LawfulBEq α] (l : List α) (a : α)
    (h : l.contains a = false) : a ∉ l := by
  intro hm
  rw [(contains_iff_mem l a).mpr hm] at h
  cases h

lemma inv_wfCreate (s : DB) (inp : WfInput) (h : Inv s) : Inv (afterEx (wfCreate s inp) s) := by
  rcases wfCreate_shape s inp with ⟨e, he⟩ | ⟨s2, heq, hn, hshape⟩
  · simpa [afterEx, he] using h
  · simp only [afterEx, heq]
    obtain ⟨hdid, htid, hdb, htb, hdes, htdes⟩ := h
    rcases hshape with ⟨dd, _, _, hdds, hid, hdnew, htds⟩ |
      ⟨td, _, _, htds, hid, htnew, hdds⟩ | ⟨_, hdds, htds, _, _⟩
    · refine ⟨?_, ?_, ?_, ?_, ?_, ?_⟩
      · rw [hdds]
        refine nodup_map_append_single _ _ _ hdid ?_
        rw [hid]
        exact no_fresh_id s.dds (fun d => d.id) s.nextDocId hdb
      · rw [htds]; exact htid
      · rw [hdds, hn]
        intro d hd
        rcases List.mem_append.mp hd with h1 | h1
        · exact Nat.lt_succ_of_lt (hdb d h1)
        · have he2 : d = dd := by simpa using h1
          rw [he2, hid]
          exact Nat.lt_succ_self _
      · rw [htds, hn]
        intro t ht
        exact Nat.lt_succ_of_lt (htb t ht)
      · rw [hdds]
        exact nodup_map_append_single _ _ _ hdes hdnew
      · rw [htds]; exact htdes
    · refine ⟨?_, ?_, ?_, ?_, ?_, ?_⟩
      · rw [hdds]; exact hdid
      · rw [htds]
        refine nodup_map_append_single _ _ _ htid ?_
        rw [hid]
        exact no_fresh_id s.tds (fun t => t.id) s.nextDocId htb
      · rw [hdds, hn]
        intro d hd
        exact Nat.lt_succ_of_lt (hdb d hd)
      · rw [htds, hn]
        intro t ht
        rcases List.mem_append.mp ht with h1 | h1
        · exact Nat.lt_succ_of_lt (htb t h1)
        · have he2 : t = td := by simpa using h1
          rw [he2, hid]
          exact Nat.lt_succ_self _
      · rw [hdds]; exact hdes
      · rw [htds]
        exact nodup_map_append_single _ _ _ htdes htnew
    · refine ⟨?_, ?_, ?_, ?_, ?_, ?_⟩
      · rw [hdds]; exact hdid
      · rw [htds]; exact htid
      · rw [hdds, hn]; intro d hd; exact Nat.lt_succ_of_lt (hdb d hd)
      · rw [htds, hn]; intro t ht; exact Nat.lt_succ_of_lt (htb t ht)
      · rw [hdds]; exact hdes
      · rw [htds]; exact htdes

lemma inv_apiCreateDD (s : DB) (inp : DDCreateIn) (h : Inv s) :
    Inv (afterEx (apiCreateDD s inp) s) := by
  by_cases hv : ddInsertViolation s
      ⟨s.nextDocId, inp.org_id, inp.kd_class_code_id, inp.prni, inp.designation, none, none⟩
  · simpa [afterEx, apiCreateDD, hv] using h
  · obtain ⟨hdid, htid, hdb, htb, hdes, htdes⟩ := h
    have hv2 := hv
    simp only [ddInsertViolation, Bool.or_eq_true, not_or, Bool.not_eq_true] at hv2
    have hdnew : ¬ ∃ a ∈ s.dds, a.designation = inp.designation := by
      rintro ⟨a, ha, he⟩
      exact contains_false_no_mem _ _ hv2.1.1.1 (he ▸ List.mem_map_of_mem _ ha)
    simp only [afterEx, apiCreateDD, hv, Bool.false_eq_true, if_false]
    refine ⟨?_, htid, ?_, ?_, ?_, htdes⟩
    · refine nodup_map_append_single _ _ _ hdid ?_
      exact no_fresh_id s.dds (fun d => d.id) s.nextDocId hdb
    · intro d hd
      rcases List.mem_append.mp hd with h1 | h1
      · exact Nat.lt_succ_of_lt (hdb d h1)
      · have he2 : d = ⟨s.nextDocId, inp.org_id, inp.kd_class_code_id, inp.prni,
            inp.designation, none, none⟩ := by simpa using h1
        rw [he2]
        exact Nat.lt_succ_self _
    · intro t ht
      exact Nat.lt_succ_of_lt (htb t ht)
    · exact nodup_map_append_single _ _ _ hdes hdnew

lemma inv_apiCreateTD (s : DB) (inp : TDCreateIn) (h : Inv s) :
    Inv (afterEx (apiCreateTD s inp) s) := by
  by_cases hv : tdInsertViolation s
      ⟨s.nextDocId, inp.org_id, inp.td_class_code_id, inp.prn, inp.designation, none, none⟩
  · simpa [afterEx, apiCreateTD, hv] using h
  · obtain ⟨hdid, htid, hdb, htb, hdes, htdes⟩ := h
    have hv2 := hv
    simp only [tdInsertViolation, Bool.or_eq_true, not_or, Bool.not_eq_true] at hv2
    have htnew : ¬ ∃ a ∈ s.tds, a.designation = inp.designation := by
      rintro ⟨a, ha, he⟩
      exact contains_false_no_mem _ _ hv2.1.1.1 (he ▸ List.mem_map_of_mem _ ha)
    simp only [afterEx, apiCreateTD, hv, Bool.false_eq_true, if_false]
    refine ⟨hdid, ?_, ?_, ?_, hdes, ?_⟩
    · refine nodup_map_append_single _ _ _ htid ?_
      exact no_fresh_id s.tds (fun t => t.id) s.nextDocId htb
    · intro d hd
      exact Nat.lt_succ_of_lt (hdb d hd)
    · intro t ht
      rcases List.mem_append.mp ht with h1 | h1
      · exact Nat.lt_succ_of_lt (htb t h1)
      · have he2 : t = ⟨s.nextDocId, inp.org_id, inp.td_class_code_id, inp.prn,
            inp.designation, none, none⟩ := by simpa using h1
        rw [he2]
        exact Nat.lt_succ_self _
    · exact nodup_map_append_single _ _ _ htdes htnew

lemma inv_apiUpdateDD (s : DB) (doc_id : Nat) (inp : DDCreateIn) (h : Inv s) :
    Inv (afterEx (apiUpdateDD s doc_id inp) s) := by
  unfold apiUpdateDD
  cases hf : s.dds.find? (fun d => d.id == doc_id) with
  | none => simpa [afterEx] using h
  | some d0 =>
      by_cases hv : ddUpdateViolation s doc_id inp
      · simpa [afterEx, hv] using h
      · obtain ⟨hdid, htid, hdb, htb, hdes, htdes⟩ := h
        have hv2 := hv
        simp only [ddUpdateViolation, Bool.or_eq_true, not_or, Bool.not_eq_true] at hv2
        have hNew : ∀ x ∈ s.dds, x.id ≠ doc_id → x.designation ≠ inp.designation := by
          intro x hx hxid he
          refine contains_false_no_mem _ _ hv2.1.1 ?_
          rw [← he]
          exact List.mem_map_of_mem _ (List.mem_filter.mpr ⟨hx, by simpa using hxid⟩)
        simp only [afterEx, hv, Bool.false_eq_true, if_false]
        refine ⟨?_, htid, ?_, htb, ?_, htdes⟩
        · rw [map_proj_update s.dds (fun d => d.id) (fun d => d.id) doc_id
            (fun d => { d with
              org_id := inp.org_id
              kd_class_code_id := inp.kd_class_code_id
              prni := inp.prni
              designation := inp.designation }) (fun x => rfl)]
          exact hdid
        · intro d hd
          rcases List.mem_map.mp hd with ⟨x, hx, hxe⟩
          by_cases hxid : x.id = doc_id
          · have hde : d.id = x.id := by
              rw [← hxe]
              simp [hxid]
            rw [hde]
            exact hdb x hx
          · have hde : d = x := by
              rw [← hxe]
              simp [hxid]
            rw [hde]
            exact hdb x hx
        · exact nodup_map_ite_update s.dds (fun d => d.id) (fun d => d.designation)
            doc_id (fun d => { d with
              org_id := inp.org_id
              kd_class_code_id := inp.kd_class_code_id
              prni := inp.prni
              designation := inp.designation }) inp.designation (fun x => rfl) hdid hdes hNew

lemma inv_apiUpdateTD (s : DB) (doc_id : Nat) (inp : TDCreateIn) (h : Inv s) :
    Inv (afterEx (apiUpdateTD s doc_id inp) s) := by
  unfold apiUpdateTD
  cases hf : s.tds.find? (fun t => t.id == doc_id) with
  | none => simpa [afterEx] using h
  | some t0 =>
      by_cases hv : tdUpdateViolation s doc_id inp
      · simpa [afterEx, hv] using h
      · obtain ⟨hdid, htid, hdb, htb, hdes, htdes⟩ := h
        have hv2 := hv
        simp only [tdUpdateViolation, Bool.or_eq_true, not_or, Bool.not_eq_true] at hv2
        have hNew : ∀ x ∈ s.tds, x.id ≠ doc_id → x.designation ≠ inp.designation := by
          intro x hx hxid he
          refine contains_false_no_mem _ _ hv2.1.1 ?_
          rw [← he]
          exact List.mem_map_of_mem _ (List.mem_filter.mpr ⟨hx, by simpa using hxid⟩)
        simp only [afterEx, hv, Bool.false_eq_true, if_false]
        refine ⟨hdid, ?_, hdb, ?_, hdes, ?_⟩
        · rw [map_proj_update s.tds (fun t => t.id) (fun t => t.id) doc_id
            (fun t => { t with
              org_id := inp.org_id
              td_class_code_id := inp.td_class_code_id
              prn := inp.prn
              designation := inp.designation }) (fun x => rfl)]
          exact htid
        · intro t ht
          rcases List.mem_map.mp ht with ⟨x, hx, hxe⟩
          by_cases hxid : x.id = doc_id
          · have hte : t.id = x.id := by
              rw [← hxe]
              simp [hxid]
            rw [hte]
            exact htb x hx
          · have hte : t = x := by
              rw [← hxe]
              simp [hxid]
            rw [hte]
            exact htb x hx
        · exact nodup_map_ite_update s.tds (fun t => t.id) (fun t => t.designation)
            doc_id (fun t => { t with
              org_id := inp.org_id
              td_class_code_id := inp.td_class_code_id
              prn := inp.prn
              designation := inp.designation }) inp.designation (fun x => rfl) htid htdes hNew

lemma inv_deleteDocument (s : DB) (doc_id : Nat) (h : Inv s) :
    Inv (afterEx (deleteDocument s doc_id) s) := by
  unfold deleteDocument
  cases hf : s.baseDocs.find? (fun b => b.id == doc_id) with
  | none => simpa [afterEx] using h
  | some b =>
      obtain ⟨hdid, htid, hdb, htb, hdes, htdes⟩ := h
      simp only [afterEx]
      refine ⟨?_, ?_, ?_, ?_, ?_, ?_⟩
      · exact ((List.filter_sublist _).map _).nodup hdid
      · exact ((List.filter_sublist _).map _).nodup htid
      · intro d hd
        exact hdb d (List.mem_of_mem_filter hd)
      · intro t ht
        exact htb t (List.mem_of_mem_filter ht)
      · exact ((List.filter_sublist _).map _).nodup hdes
      · exact ((List.filter_sublist _).map _).nodup htdes

lemma inv_reachable (s : DB) (h : Reachable s) : Inv s := by
  induction h with
  | empty => exact inv_empty
  | wf s inp _ ih => exact inv_wfCreate s inp ih
  | createDD s inp _ ih => exact inv_apiCreateDD s inp ih
  | createTD s inp _ ih => exact inv_apiCreateTD s inp ih
  | updateDD s doc_id inp _ ih => exact inv_apiUpdateDD s doc_id inp ih
  | updateTD s doc_id inp _ ih => exact inv_apiUpdateTD s doc_id inp ih
  | del s doc_id _ ih => exact inv_deleteDocument s doc_id ih

/-- A representative creation request used in the C3 trace (DD, impersonal
designation, auto-allocated number). -/
def c3inpA : WfInput :=
  ⟨some "DD", some "impersonal", some "АБВГ", some "123456", none, some "doc", some "dev"⟩

/-- Store after registering one document through the workflow (prni 1,
designation "АБВГ.123456.001", base row with file_name NULL). -/
def c3s1 : DB := afterEx (wfCreate DB.empty c3inpA) DB.empty

/-- ... then one JSON-API design document for the same partition with the
already-used number 1 under the fresh designation "X".  Its base row's
file_name "" collides with nothing (the workflow's base row has file_name
NULL, and NULLs never violate the UNIQUE constraint), its designation and
foreign keys are fine, so the commit succeeds. -/
def c3s2 : DB := afterEx (apiCreateDD c3s1 ⟨1, 1, 1, "X"⟩) c3s1

/-- C3 counterexample: a store reachable by the exposed operations in which
two DesignDocument rows share the same `(org_id, kd_class_code_id, prni)`:
the JSON create endpoint accepts client-supplied numbers without any
number-level check, and no storage constraint covers the triple. -/
theorem C3_counterexample :
    Reachable c3s2 ∧
    ¬ ((c3s2.dds.map (fun d => (d.org_id, d.kd_class_code_id, d.prni))).Nodup) := by
  constructor
  · exact Reachable.createDD _ _ (Reachable.wf _ _ Reachable.empty)
  · decide

/-- C3 (amended): in every store state reachable by the exposed operations,
no two DesignDocument rows share a designation and no two TechDocument
rows share a designation (the UNIQUE `designation` constraint of
models.py); per-partition uniqueness of prni/prn does NOT hold, since the
JSON create/update endpoints accept arbitrary client-supplied numbers. -/
theorem C3_designations_unique (s : DB) (h : Reachable s) :
    (s.dds.map (fun d => d.designation)).Nodup ∧
    (s.tds.map (fun t => t.designation)).Nodup :=
  ⟨(inv_reachable s h).2.2.2.2.1, (inv_reachable s h).2.2.2.2.2⟩

/-- Amended C3 instantiated at the concrete reachable store `c3s2`. -/
theorem C3_designations_unique_witness :
    (c3s2.dds.map (fun d => d.designation)).Nodup ∧
    (c3s2.tds.map (fun t => t.designation)).Nodup :=
  C3_designations_unique c3s2
    (Reachable.createDD _ _ (Reachable.wf _ _ Reachable.empty))



/-! ### C4: atomicity of the base row and the kind-specific row -/

/-- No committed base document of kind DD lacks its DesignDocument row, and
none of kind TD lacks its TechDocument row. -/
def NoOrphans (s : DB) : Prop :=
  ∀ b ∈ s.baseDocs,
    (b.type = "DD" → ∃ d ∈ s.dds, d.id = b.id) ∧
    (b.type = "TD" → ∃ t ∈ s.tds, t.id = b.id)

/-- A DD creation request whose `designation_method` is not "impersonal". -/
def c4inp : WfInput :=
  ⟨some "DD", some "manual", some "АБВГ", some "123456", some "7", some "doc", some "dev"⟩

/-- The store the request leaves behind. -/
def c4state : DB := { DB.empty with baseDocs := [⟨1, "DD", none⟩], nextDocId := 2 }

/-- C4 counterexample: a registration with `doc_type = "DD"` but
`designation_method = "manual"` falls into the workflow's `else: pass`
branch and commits successfully, leaving a base document of type DD with
no DesignDocument row — a partial document is visible. -/
theorem C4_counterexample :
    (wfCreate DB.empty c4inp).toOption = some (1, c4state) ∧
    c4state.baseDocs = [⟨1, "DD", none⟩] ∧ c4state.dds = [] ∧ c4state.tds = [] ∧
    ¬ NoOrphans c4state := by
  refine ⟨by decide, by decide, by decide, by decide, ?_⟩
  intro hno
  rcases (hno ⟨1, "DD", none⟩ (by decide)).1 rfl with ⟨d, hd, _⟩
  rw [show c4state.dds = [] from rfl] at hd
  cases hd

/-- C4 (amended): for every request whose `designation_method` is
"impersonal", the registration commits the base row and the kind-specific
row together or rolls both back: it never introduces an orphan base
document.  (Requests with any other designation_method commit the base row
alone, per the counterexample.) -/
theorem C4_atomic_impersonal (s : DB) (inp : WfInput)
    (hm : inp.designation_method = some "impersonal")
    (h : NoOrphans s) : NoOrphans (afterEx (wfCreate s inp) s) := by
  rcases wfCreate_shape s inp with ⟨e, he⟩ | ⟨s2, heq, hn, hshape⟩
  · simpa [afterEx, he] using h
  · simp only [afterEx, heq]
    rcases hshape with ⟨dd, htype, hb, hdds, hid, _, htds⟩ |
      ⟨td, htype, hb, htds, hid, _, hdds⟩ | ⟨hb, hdds, htds, hnot1, hnot2⟩
    · intro b hbmem
      rw [hb] at hbmem
      rcases List.mem_append.mp hbmem with h1 | h1
      · have hold := h b h1
        constructor
        · intro ht
          rcases hold.1 ht with ⟨d, hdm, hde⟩
          exact ⟨d, by rw [hdds]; exact List.mem_append_left _ hdm, hde⟩
        · intro ht
          rcases hold.2 ht with ⟨t, htm, hte⟩
          exact ⟨t, by rw [htds]; exact htm, hte⟩
      · have hbe : b = ⟨s.nextDocId, "DD", none⟩ := by simpa using h1
        constructor
        · intro _
          refine ⟨dd, by rw [hdds]; exact List.mem_append_right _ (by simp), ?_⟩
          rw [hid, hbe]
        · intro hTD
          rw [hbe] at hTD
          simp at hTD
    · intro b hbmem
      rw [hb] at hbmem
      rcases List.mem_append.mp hbmem with h1 | h1
      · have hold := h b h1
        constructor
        · intro ht
          rcases hold.1 ht with ⟨d, hdm, hde⟩
          exact ⟨d, by rw [hdds]; exact hdm, hde⟩
        · intro ht
          rcases hold.2 ht with ⟨t, htm, hte⟩
          exact ⟨t, by rw [htds]; exact List.mem_append_left _ htm, hte⟩
      · have hbe : b = ⟨s.nextDocId, "TD", none⟩ := by simpa using h1
        constructor
        · intro hDD
          rw [hbe] at hDD
          simp at hDD
        · intro _
          refine ⟨td, by rw [htds]; exact List.mem_append_right _ (by simp), ?_⟩
          rw [hid, hbe]
    · have hne1 : (inp.doc_type).getD "" ≠ "DD" := by
        cases hdt : inp.doc_type with
        | none => decide
        | some x =>
            intro hx
            simp only [Option.getD_some] at hx
            exact hnot1 ⟨by rw [hdt, hx], hm⟩
      have hne2 : (inp.doc_type).getD "" ≠ "TD" := by
        cases hdt : inp.doc_type with
        | none => decide
        | some x =>
            intro hx
            simp only [Option.getD_some] at hx
            exact hnot2 ⟨by rw [hdt, hx], hm⟩
      intro b hbmem
      rw [hb] at hbmem
      rcases List.mem_append.mp hbmem with h1 | h1
      · have hold := h b h1
        constructor
        · intro ht
          rcases hold.1 ht with ⟨d, hdm, hde⟩
          exact ⟨d, by rw [hdds]; exact hdm, hde⟩
        · intro ht
          rcases hold.2 ht with ⟨t, htm, hte⟩
          exact ⟨t, by rw [htds]; exact htm, hte⟩
      · have hbe : b = ⟨s.nextDocId, (inp.doc_type).getD "", none⟩ := by simpa using h1
        constructor
        · intro hDD
          rw [hbe] at hDD
          exact absurd hDD hne1
        · intro hTD
          rw [hbe] at hTD
          exact absurd hTD hne2

/-- A well-formed impersonal DD request, to instantiate the amended C4. -/
def c4winp : WfInput :=
  ⟨some "DD", some "impersonal", some "АБВГ", some "123456", none, some "doc", some "dev"⟩

/-- Amended C4 instantiated: registering through the impersonal path from
the fresh store leaves no orphan base document. -/
theorem C4_atomic_impersonal_witness :
    NoOrphans (afterEx (wfCreate DB.empty c4winp) DB.empty) :=
  C4_atomic_impersonal DB.empty c4winp rfl
    (by intro b hb; exact absurd hb (by simp [DB.empty]))


/-! ### C5: manual number handling in the creation workflow -/

/-- Store with organization АБВГ (id 1), KD class 123456 (id 1), and one
design document whose prni is 5 under the unrelated designation "X"
(insertable through the JSON API). -/
def c5state : DB :=
  ⟨⟨[⟨1, some "АБВГ", "Организация с кодом АБВГ", false, none, none⟩], 2⟩,
   ⟨[⟨1, "123456", "Класс КД 123456"⟩], 2⟩,
   ⟨[], 1⟩,
   [⟨1, "DD", none⟩],
   [⟨1, 1, 1, 5, "X", none, none⟩],
   [],
   2⟩

/-- Workflow request manually supplying registration number 5 for the same
partition. -/
def c5inp : WfInput :=
  ⟨some "DD", some "impersonal", some "АБВГ", some "123456", some "5", some "doc", some "dev"⟩

/-- C5 counterexample: the number 5 is already used in the partition, yet
the workflow performs no number-level uniqueness check (check_prni_unique
is never called): the registration SUCCEEDS, creating a second row with
prni 5, instead of failing with DuplicateNumber. -/
theorem C5_counterexample :
    (5 : Int) ∈ usedPrnis c5state.dds 1 1 ∧
    (wfCreate c5state c5inp).toOption.map (fun p => p.2.dds.map (fun d => d.prni)) =
      some [5, 5] := by
  constructor
  · decide
  · decide

/-- C5 (amended): the workflow checks no number-level uniqueness for a
manual number.  Creation fails exactly when the BUILT DESIGNATION already
exists in the design_documents table — surfaced as an uncaught
IntegrityError, never as a DuplicateNumber error — and then no document is
created; when the designation is unused the creation succeeds (even if the
number is already used in the partition under another designation), and
afterwards the gap-filling auto-allocator never returns that number for
the partition. -/
theorem C5_manual_number (s : DB) (inp : WfInput) (orgc clsc rn : String) (r : Int)
    (oid cid : Nat) (orgs2 : Orgs) (kds2 : Classes)
    (htype : inp.doc_type = some "DD")
    (hmeth : inp.designation_method = some "impersonal")
    (hdev : strFalsy inp.developed_by = false)
    (horg : inp.org_code = some orgc) (horgne : orgc ≠ "")
    (hcls : inp.class_code = some clsc) (hclsne : clsc ≠ "")
    (hrn : inp.reg_number = some rn) (hrne : rn ≠ "")
    (hparse : parseIntStr rn = some r)
    (hores : get_or_create_org_id s.orgs orgc false none = .ok (oid, orgs2))
    (hcres : get_or_create_class_id s.kdClasses clsc true = .ok (cid, kds2)) :
    ((s.dds.map (fun d => d.designation)).contains (mkDesignation orgc clsc r) = true →
      wfCreate s inp = .error .integrityError) ∧
    ((s.dds.map (fun d => d.designation)).contains (mkDesignation orgc clsc r) = false →
      wfCreate s inp = .ok (s.nextDocId,
        { s with
          orgs := orgs2
          kdClasses := kds2
          baseDocs := s.baseDocs ++ [⟨s.nextDocId, "DD", none⟩]
          dds := s.dds ++
            [⟨s.nextDocId, oid, cid, r, mkDesignation orgc clsc r, some orgc, some clsc⟩]
          nextDocId := s.nextDocId + 1 }) ∧
      get_next_prni
        (s.dds ++ [⟨s.nextDocId, oid, cid, r, mkDesignation orgc clsc r, some orgc, some clsc⟩])
        oid cid ≠ r) := by
  have hfalsy_org : strFalsy (some orgc) = false := by
    simpa [strFalsy] using horgne
  have hfalsy_cls : strFalsy (some clsc) = false := by
    simpa [strFalsy] using hclsne
  constructor
  · intro hc
    have hcmem : ∃ d ∈ s.dds, d.designation = mkDesignation orgc clsc r := by
      rcases List.mem_map.mp ((contains_iff_mem _ _).mp hc) with ⟨d, hd, he⟩
      exact ⟨d, hd, he⟩
    simp [wfCreate, htype, hmeth, hdev, horg, hcls, hrn, hrne, hparse,
      hfalsy_org, hfalsy_cls, hores, hcres, hcmem]
  · intro hc
    have hcmem : ¬ ∃ d ∈ s.dds, d.designation = mkDesignation orgc clsc r := by
      rintro ⟨d, hd, he⟩
      exact contains_false_no_mem _ _ hc (he ▸ List.mem_map_of_mem _ hd)
    constructor
    · simp [wfCreate, htype, hmeth, hdev, horg, hcls, hrn, hrne, hparse,
        hfalsy_org, hfalsy_cls, hores, hcres, hcmem]
    · have hmem : r ∈ usedPrnis
          (s.dds ++ [⟨s.nextDocId, oid, cid, r, mkDesignation orgc clsc r,
            some orgc, some clsc⟩]) oid cid := by
        unfold usedPrnis
        have hrow : (⟨s.nextDocId, oid, cid, r, mkDesignation orgc clsc r,
            some orgc, some clsc⟩ : DDRow) ∈
            (s.dds ++ ([⟨s.nextDocId, oid, cid, r, mkDesignation orgc clsc r,
              some orgc, some clsc⟩] : List DDRow)).filter
              (fun d => d.org_id == oid && d.kd_class_code_id == cid) := by
          refine List.mem_filter.mpr ⟨List.mem_append_right _ (by simp), by simp⟩
        exact List.mem_map.mpr ⟨_, hrow, rfl⟩
      obtain ⟨h1, _, _⟩ := nextFreeInt_spec (usedPrnis
        (s.dds ++ [⟨s.nextDocId, oid, cid, r, mkDesignation orgc clsc r,
          some orgc, some clsc⟩]) oid cid)
      intro he
      apply h1
      have he2 : scanFree (usedPrnis
          (s.dds ++ [⟨s.nextDocId, oid, cid, r, mkDesignation orgc clsc r,
          some orgc, some clsc⟩]) oid cid) 1
          ((usedPrnis (s.dds ++ [⟨s.nextDocId, oid, cid, r, mkDesignation orgc clsc r,
          some orgc, some clsc⟩]) oid cid).length + 1) = r := he
      rw [he2]
      exact hmem

/-- Store like `c5state` but whose existing row carries the colliding
designation the workflow would build for number 5. -/
def c5wstate : DB :=
  ⟨⟨[⟨1, some "АБВГ", "Организация с кодом АБВГ", false, none, none⟩], 2⟩,
   ⟨[⟨1, "123456", "Класс КД 123456"⟩], 2⟩,
   ⟨[], 1⟩,
   [⟨1, "DD", none⟩],
   [⟨1, 1, 1, 5, "АБВГ.123456.005", some "АБВГ", some "123456"⟩],
   [],
   2⟩

/-- Amended C5 instantiated at `c5wstate` and manual number 5: the built
designation collides, so the workflow fails with the uncaught
IntegrityError (and the success clause holds vacuously). -/
theorem C5_manual_number_witness :
    ((c5wstate.dds.map (fun d => d.designation)).contains
        (mkDesignation "АБВГ" "123456" 5) = true →
      wfCreate c5wstate c5inp = .error .integrityError) ∧
    ((c5wstate.dds.map (fun d => d.designation)).contains
        (mkDesignation "АБВГ" "123456" 5) = false →
      wfCreate c5wstate c5inp = .ok (c5wstate.nextDocId,
        { c5wstate with
          orgs := c5wstate.orgs
          kdClasses := c5wstate.kdClasses
          baseDocs := c5wstate.baseDocs ++ [⟨c5wstate.nextDocId, "DD", none⟩]
          dds := c5wstate.dds ++
            [⟨c5wstate.nextDocId, 1, 1, 5, mkDesignation "АБВГ" "123456" 5,
              some "АБВГ", some "123456"⟩]
          nextDocId := c5wstate.nextDocId + 1 }) ∧
      get_next_prni
        (c5wstate.dds ++ [⟨c5wstate.nextDocId, 1, 1, 5, mkDesignation "АБВГ" "123456" 5,
          some "АБВГ", some "123456"⟩]) 1 1 ≠ 5) :=
  C5_manual_number c5wstate c5inp "АБВГ" "123456" "5" 5 1 1 c5wstate.orgs c5wstate.kdClasses
    rfl rfl rfl rfl (by decide) rfl (by decide) rfl (by decide) (by decide) rfl rfl


/-! ### C6: cross-namespace conflicts in organization resolution -/

/-- C6: resolving an 8-digit code in OKPO mode when the first matching row
holds that numeric value with `code_okpo = false` fails with
NamespaceConflict, and resolving in non-OKPO mode when the first row
matching `num_code` has `code_okpo = true` also fails with
NamespaceConflict; the resolver returns no new table on either error, so
no row is created or modified. -/
theorem C6_namespace_conflict (st : Orgs) (code : String)
    (h8 : code.length = 8) (hd : allDigits code = true) :
    (∀ org : Org,
      st.rows.find? (fun o => o.num_code_okpo == some (natOfDigits code.toList)) = some org →
      org.code_okpo = false →
      get_or_create_org_id st code true none =
        .error (.namespaceConflict "Этот числовой код уже используется как общий, не ОКПО.")) ∧
    (∀ org : Org,
      st.rows.find? (fun o => o.num_code == some (natOfDigits code.toList)) = some org →
      org.code_okpo = true →
      get_or_create_org_id st code false none =
        .error (.namespaceConflict "Этот код уже используется как ОКПО.")) := by
  have hne : code ≠ "" := by
    intro he
    rw [he] at h8
    simp at h8
  constructor
  · intro org hfind hflag
    have hfind2 : st.rows.find?
        (fun o => o.num_code_okpo == some (natOfDigits code.data)) = some org := hfind
    simp [get_or_create_org_id, hne, normOrgName, h8, hd, hfind2, hflag]
  · intro org hfind hflag
    have h4 : code.length ≠ 4 := by omega
    have hfind2 : st.rows.find?
        (fun o => o.num_code == some (natOfDigits code.data)) = some org := hfind
    simp [get_or_create_org_id, hne, normOrgName, h8, h4, hd, hfind2, hflag]

/-- Table holding the numeric value 12345678 in each namespace (two rows),
to instantiate C6 in both directions. -/
def c6st : Orgs :=
  ⟨[⟨1, none, "Организация с чужим числовым кодом", false, none, some 12345678⟩,
    ⟨2, none, "Организация с чужим ОКПО", true, some 12345678, none⟩], 3⟩

/-- C6 instantiated: the value 12345678 registered as a general numeric
code rejects OKPO-mode resolution, and a second row carrying it as OKPO
rejects general-mode resolution. -/
theorem C6_namespace_conflict_witness :
    get_or_create_org_id c6st "12345678" true none =
      .error (.namespaceConflict "Этот числовой код уже используется как общий, не ОКПО.") ∧
    get_or_create_org_id c6st "12345678" false none =
      .error (.namespaceConflict "Этот код уже используется как ОКПО.") := by
  have h := C6_namespace_conflict c6st "12345678" (by decide) (by decide)
  constructor
  · exact h.1 ⟨1, none, "Организация с чужим числовым кодом", false, none, some 12345678⟩
      (by decide) rfl
  · exact h.2 ⟨2, none, "Организация с чужим ОКПО", true, some 12345678, none⟩
      (by decide) rfl

/-! ### C7: idempotence of organization resolution -/

/-- C7: if resolving a code succeeds with id `i` and table `st2`, resolving
the same code (same mode, same display name) again from `st2` succeeds
with the same id and leaves the table unchanged; moreover the first call
created at most one row. -/
theorem C7_resolve_idempotent (st : Orgs) (code : String) (is_okpo : Bool)
    (name : Option String) (i : Nat) (st2 : Orgs)
    (h : get_or_create_org_id st code is_okpo name = .ok (i, st2)) :
    get_or_create_org_id st2 code is_okpo name = .ok (i, st2) ∧
    st2.rows.length ≤ st.rows.length + 1 := by
  by_cases hne : code = ""
  · simp [get_or_create_org_id, hne] at h
  cases hnm : normOrgName name with
  | error e => simp [get_or_create_org_id, hne, hnm] at h
  | ok nm =>
    by_cases hok : is_okpo
    · subst hok
      by_cases h8 : code.length = 8
      · by_cases hd : allDigits code
        · cases hf : st.rows.find?
              (fun o => o.num_code_okpo == some (natOfDigits code.data)) with
          | some org =>
              by_cases hfl : org.code_okpo
              · simp [get_or_create_org_id, hne, hnm, h8, hd, hf, hfl] at h
                obtain ⟨rfl, rfl⟩ := h
                constructor
                · simp [get_or_create_org_id, hne, hnm, h8, hd, hf, hfl]
                · omega
              · simp [get_or_create_org_id, hne, hnm, h8, hd, hf, hfl] at h
          | none =>
              simp [get_or_create_org_id, hne, hnm, h8, hd, hf] at h
              obtain ⟨rfl, rfl⟩ := h
              constructor
              · simp [get_or_create_org_id, hne, hnm, h8, hd, List.find?_append, hf]
              · simp
        · simp [get_or_create_org_id, hne, hnm, h8, hd] at h
      · simp [get_or_create_org_id, hne, hnm, h8] at h
    · have hok2 : is_okpo = false := by simpa using hok
      subst hok2
      by_cases h4 : code.length = 4
      · by_cases hcy : allUpperCyr code
        · cases hf : st.rows.find? (fun o => o.code == some code) with
          | some org =>
              simp [get_or_create_org_id, hne, hnm, h4, hcy, hf] at h
              obtain ⟨rfl, rfl⟩ := h
              constructor
              · simp [get_or_create_org_id, hne, hnm, h4, hcy, hf]
              · omega
          | none =>
              simp [get_or_create_org_id, hne, hnm, h4, hcy, hf] at h
              obtain ⟨rfl, rfl⟩ := h
              constructor
              · simp [get_or_create_org_id, hne, hnm, h4, hcy, List.find?_append, hf]
              · simp
        · simp [get_or_create_org_id, hne, hnm, h4, hcy] at h
      · by_cases h8 : code.length = 8
        · by_cases hd : allDigits code
          · cases hf : st.rows.find?
                (fun o => o.num_code == some (natOfDigits code.data)) with
            | some org =>
                by_cases hfl : org.code_okpo
                · simp [get_or_create_org_id, hne, hnm, h4, h8, hd, hf, hfl] at h
                · simp [get_or_create_org_id, hne, hnm, h4, h8, hd, hf, hfl] at h
                  obtain ⟨rfl, rfl⟩ := h
                  constructor
                  · simp [get_or_create_org_id, hne, hnm, h4, h8, hd, hf, hfl]
                  · omega
            | none =>
                simp [get_or_create_org_id, hne, hnm, h4, h8, hd, hf] at h
                obtain ⟨rfl, rfl⟩ := h
                constructor
                · simp [get_or_create_org_id, hne, hnm, h4, h8, hd, List.find?_append, hf]
                · simp
          · simp [get_or_create_org_id, hne, hnm, h4, h8, hd] at h
        · simp [get_or_create_org_id, hne, hnm, h4, h8] at h

/-- C7 instantiated: resolving "АБВГ" twice from the empty table returns
id 1 both times and a single created row. -/
theorem C7_resolve_idempotent_witness :
    get_or_create_org_id
        ⟨[⟨1, some "АБВГ", "Организация с кодом АБВГ", false, none, none⟩], 2⟩
        "АБВГ" false none =
      .ok (1, ⟨[⟨1, some "АБВГ", "Организация с кодом АБВГ", false, none, none⟩], 2⟩) ∧
    (⟨[⟨1, some "АБВГ", "Организация с кодом АБВГ", false, none, none⟩], 2⟩ : Orgs).rows.length ≤
      (⟨[], 1⟩ : Orgs).rows.length + 1 :=
  C7_resolve_idempotent ⟨[], 1⟩ "АБВГ" false none 1
    ⟨[⟨1, some "АБВГ", "Организация с кодом АБВГ", false, none, none⟩], 2⟩ rfl



/-! ### C8: designation format -/

/-- Modelled from the spec words for the Designation Builder: "the number
zero-padded to 3 digits", larger numbers simply widening the field. -/
def specZeroPad3 (s : String) : String :=
  String.mk (List.replicate (3 - s.length) '0') ++ s

/-- C8: the designation built by the workflow is the organization code, the
class code and the zero-padded number joined by "."; the numeric field is
exactly `max 3` digits wide (no truncation: numbers of four or more digits
widen it), and the spec's two examples hold. -/
theorem C8_designation_format :
    (∀ (org cls : String) (n : Int), 1 ≤ n →
      mkDesignation org cls n = org ++ "." ++ cls ++ "." ++ specZeroPad3 (toString n.toNat)) ∧
    (∀ s : String, (specZeroPad3 s).length = max 3 s.length) ∧
    (∀ (org cls : String) (n : Int), 1 ≤ n → 3 ≤ (toString n.toNat).length →
      mkDesignation org cls n = org ++ "." ++ cls ++ "." ++ toString n.toNat) ∧
    mkDesignation "АБВГ" "123456" 7 = "АБВГ.123456.007" ∧
    mkDesignation "АБВГ" "123456" 1234 = "АБВГ.123456.1234" := by
  have hpad : ∀ s : String, specZeroPad3 s = String.mk (List.replicate (3 - s.length) '0') ++ s :=
    fun s => rfl
  have hlen : ∀ s : String, (specZeroPad3 s).length = max 3 s.length := by
    intro s
    rw [hpad, String.length_append]
    have h1 : (String.mk (List.replicate (3 - s.length) '0')).length =
        3 - s.length := by
      show (List.replicate (3 - s.length) '0').length = 3 - s.length
      exact List.length_replicate _ _
    rw [h1]
    omega
  have hmain : ∀ (org cls : String) (n : Int), 1 ≤ n →
      mkDesignation org cls n = org ++ "." ++ cls ++ "." ++ specZeroPad3 (toString n.toNat) := by
    intro org cls n hn
    have h0 : 0 ≤ n := by omega
    unfold mkDesignation intPad3
    rw [if_pos h0]
    rfl
  refine ⟨hmain, hlen, ?_, by decide, by decide⟩
  intro org cls n hn hw
  rw [hmain org cls n hn]
  have : specZeroPad3 (toString n.toNat) = toString n.toNat := by
    rw [hpad]
    have h3 : 3 - (toString n.toNat).length = 0 := by omega
    rw [h3]
    show String.mk ([] ++ (toString n.toNat).data) = toString n.toNat
    rw [List.nil_append]
  rw [this]

/-- C8 instantiated at the spec's first example, discharging the
positivity hypothesis at n = 7. -/
theorem C8_designation_format_witness :
    mkDesignation "АБВГ" "123456" 7 =
      "АБВГ" ++ "." ++ "123456" ++ "." ++ specZeroPad3 (toString (7 : Int).toNat) :=
  C8_designation_format.1 "АБВГ" "123456" 7 (by decide)

/-! ### C9 / C10: validation rules -/

/-- Modelled from the spec's Code Validator rules for organization codes:
OKPO mode requires exactly 8 digits; otherwise length 4 must be 4
uppercase Cyrillic letters, length 8 must be 8 digits, and any other
length is invalid. -/
def specMalformedOrg (code : String) (is_okpo : Bool) : Bool :=
  if is_okpo then !(code.length == 8 && allDigits code)
  else if code.length == 4 then !allUpperCyr code
  else if code.length == 8 then !allDigits code
  else true

/-- Modelled from the spec's Code Validator rules for class codes: DD
requires exactly 6 digits, TD exactly 7. -/
def specMalformedClass (code : String) (is_kd : Bool) : Bool :=
  !(code.length == (if is_kd then 6 else 7) && allDigits code)

lemma org_validation_iff (st : Orgs) (code : String) (is_okpo : Bool) :
    (∃ d, get_or_create_org_id st code is_okpo none = .error (.validation d)) ↔
      specMalformedOrg code is_okpo = true := by
  by_cases hne : code = ""
  · subst hne
    cases is_okpo <;> simp [get_or_create_org_id, specMalformedOrg]
  by_cases hok : is_okpo
  · subst hok
    by_cases h8 : code.length = 8
    · by_cases hd : allDigits code
      · cases hf : st.rows.find?
            (fun o => o.num_code_okpo == some (natOfDigits code.data)) with
        | some org =>
            by_cases hfl : org.code_okpo <;>
              simp [get_or_create_org_id, specMalformedOrg, normOrgName, hne, h8, hd, hf, hfl]
        | none =>
            simp [get_or_create_org_id, specMalformedOrg, normOrgName, hne, h8, hd, hf]
      · simp [get_or_create_org_id, specMalformedOrg, normOrgName, hne, h8, hd]
    · simp [get_or_create_org_id, specMalformedOrg, normOrgName, hne, h8]
  · have hok2 : is_okpo = false := by simpa using hok
    subst hok2
    by_cases h4 : code.length = 4
    · by_cases hcy : allUpperCyr code
      · cases hf : st.rows.find? (fun o => o.code == some code) with
        | some org =>
            simp [get_or_create_org_id, specMalformedOrg, normOrgName, hne, h4, hcy, hf]
        | none =>
            simp [get_or_create_org_id, specMalformedOrg, normOrgName, hne, h4, hcy, hf]
      · simp [get_or_create_org_id, specMalformedOrg, normOrgName, hne, h4, hcy]
    · by_cases h8 : code.length = 8
      · by_cases hd : allDigits code
        · cases hf : st.rows.find?
              (fun o => o.num_code == some (natOfDigits code.data)) with
          | some org =>
              by_cases hfl : org.code_okpo <;>
                simp [get_or_create_org_id, specMalformedOrg, normOrgName,
                  hne, h4, h8, hd, hf, hfl]
          | none =>
              simp [get_or_create_org_id, specMalformedOrg, normOrgName, hne, h4, h8, hd, hf]
        · simp [get_or_create_org_id, specMalformedOrg, normOrgName, hne, h4, h8, hd]
      · simp [get_or_create_org_id, specMalformedOrg, normOrgName, hne, h4, h8]

lemma class_validation_iff (st : Classes) (code : String) (is_kd : Bool) :
    (∃ d, get_or_create_class_id st code is_kd = .error (.validation d)) ↔
      specMalformedClass code is_kd = true := by
  by_cases hne : code = ""
  · subst hne
    cases is_kd <;> simp [get_or_create_class_id, specMalformedClass]
  by_cases hlen : code.length = (if is_kd then 6 else 7)
  · by_cases hd : allDigits code
    · cases hf : st.rows.find? (fun c => c.code == code) with
      | some c => simp [get_or_create_class_id, specMalformedClass, hne, hlen, hd, hf]
      | none => simp [get_or_create_class_id, specMalformedClass, hne, hlen, hd, hf]
    · simp [get_or_create_class_id, specMalformedClass, hne, hlen, hd]
  · simp [get_or_create_class_id, specMalformedClass, hne, hlen]

/-- C9: the resolvers reject with a ValidationError exactly the malformed
codes of the spec's Code Validator — for organization codes (by OKPO mode)
and class codes (by kind) — independently of the store contents (the iff
holds for every table state, so rejection happens before any lookup or
insert); well-formed codes never produce a ValidationError. -/
theorem C9_validation_exact (ost : Orgs) (cst : Classes) (ocode ccode : String)
    (okpo kd : Bool) :
    ((∃ d, get_or_create_org_id ost ocode okpo none = .error (.validation d)) ↔
      specMalformedOrg ocode okpo = true) ∧
    ((∃ d, get_or_create_class_id cst ccode kd = .error (.validation d)) ↔
      specMalformedClass ccode kd = true) :=
  ⟨org_validation_iff ost ocode okpo, class_validation_iff cst ccode kd⟩

/-- C10: on every malformed organization code the read-only existence
check returns `{'exists': False}` — signalling no validation error, and by
its type touching no row — while the resolving operation raises a
ValidationError on the same input. -/
theorem C10_check_org_exists_malformed (st : Orgs) (code : String) (okpo : Bool)
    (h : specMalformedOrg code okpo = true) :
    check_org_exists st code okpo = ⟨false, none⟩ ∧
    (∃ d, get_or_create_org_id st code okpo none = .error (.validation d)) := by
  refine ⟨?_, (org_validation_iff st code okpo).mpr h⟩
  by_cases hne : code = ""
  · simp [check_org_exists, hne]
  by_cases hok : okpo
  · subst hok
    by_cases h8 : code.length = 8
    · by_cases hd : allDigits code
      · simp [specMalformedOrg, h8, hd] at h
      · simp [check_org_exists, hne, h8, hd]
    · simp [check_org_exists, hne, h8]
  · have hok2 : okpo = false := by simpa using hok
    subst hok2
    by_cases h4 : code.length = 4
    · by_cases hcy : allUpperCyr code
      · simp [specMalformedOrg, h4, hcy] at h
      · simp [check_org_exists, hne, h4, hcy]
    · by_cases h8 : code.length = 8
      · by_cases hd : allDigits code
        · simp [specMalformedOrg, h4, h8, hd] at h
        · simp [check_org_exists, hne, h4, h8, hd]
      · simp [check_org_exists, hne, h4, h8]

/-- C10 instantiated at the length-3 code "АБВ" in non-OKPO mode against a
non-empty table. -/
theorem C10_check_org_exists_malformed_witness :
    check_org_exists ⟨[⟨1, some "АБВГ", "Организация с кодом АБВГ", false, none, none⟩], 2⟩
        "АБВ" false = ⟨false, none⟩ ∧
    (∃ d, get_or_create_org_id
        ⟨[⟨1, some "АБВГ", "Организация с кодом АБВГ", false, none, none⟩], 2⟩
        "АБВ" false none = .error (.validation d)) :=
  C10_check_org_exists_malformed _ "АБВ" false (by decide)

end ArchiveDB
